import Mathlib

/-!
Verification development for the eos-remote-midi-for-video repository.

The Python sources are shallowly embedded as executable Lean definitions:

* `xtouchmini.py` — LED breakpoint table, per-encoder sub-ranges,
  discrete step logic (`do_next_value_for` / `do_set_value`), the
  forward mapping (value list index to ring position) used by
  `gui.MiniMidiHandler.propagate_to_midi`, and the reverse mapping used
  by `XTouchMini.on_midi`.
* `xtouch.py` — the XctlHUI button-pairing state machine and the jog
  wheel decoding (`XTouch.parse_midi`).
* `gui.py` / `rpi.py` — `MiniMidiHandler.propagate_to_midi`,
  `update_camera_status` and `CameraManager.adjust_relative`.
* `tally.py` — the device owner: `Camera.apply_command`,
  `Camera.on_config_changed` and `do_republish`.

Python integers are `Int` (or `Nat` where the source value is a
non-negative index), Python `None` is `Option.none`, raised exceptions
are `Except.error` or an explicit abort flag, and MIDI output is a list
of `MidiOut` messages.
-/

namespace EosMidi

/-- Python `list.index`, returning the index of the first occurrence or
`none` where the Python code would raise `ValueError`. -/
def pyIndex {α : Type} [DecidableEq α] : List α → α → Option Nat
  | [], _ => none
  | x :: rest, a => if x = a then some 0 else (pyIndex rest a).map (· + 1)

theorem pyIndex_getElem {α : Type} [DecidableEq α] :
    ∀ {xs : List α} {a : α} {i : Nat}, pyIndex xs a = some i → xs[i]? = some a := by
  intro xs
  induction xs with
  | nil => intro a i h; simp [pyIndex] at h
  | cons x rest ih =>
    intro a i h
    by_cases hx : x = a
    · simp [pyIndex, hx] at h
      subst h
      simp [hx]
    · simp [pyIndex, hx] at h
      obtain ⟨j, hj, hji⟩ := h
      subst hji
      simpa using ih hj

theorem pyIndex_of_mem {α : Type} [DecidableEq α] :
    ∀ {xs : List α} {a : α}, a ∈ xs → ∃ i, pyIndex xs a = some i := by
  intro xs
  induction xs with
  | nil => intro a h; simp at h
  | cons x rest ih =>
    intro a h
    by_cases hx : x = a
    · exact ⟨0, by simp [pyIndex, hx]⟩
    · have ha : a ∈ rest := by
        rcases List.mem_cons.mp h with h1 | h1
        · exact absurd h1.symm hx
        · exact h1
      obtain ⟨i, hi⟩ := ih ha
      exact ⟨i + 1, by simp [pyIndex, hx, hi]⟩

/-! ## xtouchmini.py -/

/-- `LED_STEPS` from xtouchmini.py: the 27 breakpoints of the LED ring,
including the two out-of-range sentinels -1 and 128. -/
def LED_STEPS : List Int :=
  [-1, 0, 6, 11, 16, 22, 27, 32, 38, 43, 48, 54, 59, 64, 65, 70, 76, 82, 87,
   93, 99, 105, 110, 116, 122, 127, 128]

/-- `VALUE_MID` from xtouchmini.py. -/
def VALUE_MID : Int := 64

/-- `ENCODER_TO_FUNCTION` from xtouchmini.py, kept in dict insertion
order (the order `propagate_to_midi` iterates in). -/
def ENCODER_TO_FUNCTION : List (String × Nat) :=
  [("focus", 0), ("exposurecompensation", 1), ("aperture", 2), ("shutterspeed", 3),
   ("iso", 4), ("colortemperature", 5), ("whitebalanceadjusta", 6), ("whitebalanceadjustb", 7)]

/-- Dict lookup `ENCODER_TO_FUNCTION[key]`. -/
def encoderOf (key : String) : Option Nat :=
  (ENCODER_TO_FUNCTION.find? (fun kv => kv.1 = key)).map Prod.snd

/-- `results_for_function` from xtouchmini.py.  The Python comprehensions
`[str(x) for x in range(2500, 10001, 100)]` and
`[str(x) for x in range(-9, 10)]` are rendered with `List.range`. -/
def results_for_function (f : String) : Option (List String) :=
  if f = "exposurecompensation" then
    some ["-3", "-2.6", "-2.3", "-2", "-1.6", "-1.3", "-1", "-0.6", "-0.3", "0",
          "0.3", "0.6", "1", "1.3", "1.6", "2", "2.3", "2.6", "3"]
  else if f = "aperture" then
    some ["1", "1.2", "1.4", "1.6", "1.8", "2", "2.2", "2.5", "2.8", "3.2", "3.5",
          "4", "4.5", "5", "5.6", "6.3", "7.1", "8", "9", "10", "11", "13", "14",
          "16", "18", "20", "22"]
  else if f = "shutterspeed" then
    some ["1/1000", "1/800", "1/640", "1/500", "1/400", "1/320", "1/250", "1/200",
          "1/160", "1/125", "1/100", "1/80", "1/60", "1/50", "1/40", "1/30",
          "1/25", "1/20", "1/15", "1/13", "1/10", "1/8", "1/6"]
  else if f = "colortemperature" then
    some ((List.range 76).map (fun x => toString (2500 + 100 * x)))
  else if f = "whitebalanceadjusta" ∨ f = "whitebalanceadjustb" then
    some ((List.range 19).map (fun x => toString ((x : Int) - 9)))
  else if f = "iso" then
    some (["Auto"] ++
      ["100", "125", "160", "200", "250", "320", "400", "500", "640", "800",
       "1000", "1250", "1600", "2000", "2500", "3200", "4000", "5000", "6400",
       "8000", "10000", "12800", "16000", "20000", "25600"])
  else none

/-- `function_for_encoder` from xtouchmini.py: first dict key mapping to
the given encoder index, or `none`. -/
def function_for_encoder (encoder : Nat) : Option String :=
  ((ENCODER_TO_FUNCTION.filter (fun kv => kv.2 = encoder)).map Prod.fst).head?

/-- `XTouchMini.range_for`.  The Python slice `LED_STEPS[4:-4]` is
`(LED_STEPS.take 23).drop 4` and `LED_STEPS[0:-5]` is `LED_STEPS.take 22`
(`LED_STEPS` has 27 entries).  `int(x * 127 / 76.0)` truncates a
non-negative quotient whose distance from any integer is at least 1/76,
far above double rounding error, so it equals Nat floor division. -/
def range_for (encoder : Nat) : List Int :=
  if some encoder = encoderOf "exposurecompensation" then
    (LED_STEPS.take 23).drop 4
  else if some encoder = encoderOf "whitebalanceadjusta" ∨
          some encoder = encoderOf "whitebalanceadjustb" then
    (LED_STEPS.take 23).drop 4
  else if some encoder = encoderOf "shutterspeed" then
    LED_STEPS.take 22
  else if some encoder = encoderOf "colortemperature" then
    (List.range 76).map (fun x => ((x * 127 / 76 : Nat) : Int))
  else LED_STEPS

/-- One MIDI control-change message sent to the device. -/
inductive MidiOut where
  | cc (channel : Nat) (control : Nat) (value : Int)
deriving DecidableEq, Repr

/-- The `what -> value` table of `XTouchMini.leds_special`; `none` where
the Python code raises on an unknown operation name. -/
def ledsSpecialValue (what : String) : Option Int :=
  if what = "blink-left" then some 14
  else if what = "blink-right" then some 26
  else if what = "off" then some 0
  else if what = "all-on" then some 27
  else if what = "blink-all" then some 28
  else if what = "blink-center" then some 20
  else none

/-- `XTouchMini.leds_special`: control number is `encoder + 1 + 8` on
channel 0.  Every call site below passes one of the six known operation
names, so the `none` (exception) case never fires there. -/
def leds_special (encoder : Nat) (what : String) : List MidiOut :=
  match ledsSpecialValue what with
  | some v => [MidiOut.cc 0 (encoder + 1 + 8) v]
  | none => []

/-- `XTouchMini.do_set_value`: stores `val` into `faders[encoder]`
unconditionally, then renders either an end-blink (for the -1 / 128
sentinels) or the plain ring position on channel 10. -/
def do_set_value (faders : List Int) (encoder : Nat) (val : Int) :
    List Int × List MidiOut :=
  (faders.set encoder val,
   if val = -1 then leds_special encoder "blink-left"
   else if val = 128 then leds_special encoder "blink-right"
   else [MidiOut.cc 10 (encoder + 1) val])

/-- The value selection of `XTouchMini.do_next_value_for`: for positive
delta the first list member above the current position (falling back to
the last member on `IndexError`), otherwise the last member below it
(falling back to `allowed[0]` only when `delta < 0`; the Python fallback
index expression `0 if delta < 0 else -1` picks the last member when
`delta == 0`). -/
def nextValue (allowed : List Int) (cur delta : Int) : Int :=
  if 0 < delta then
    match (allowed.filter (fun x => decide (cur < x))).head? with
    | some v => v
    | none => allowed.getLastD 0
  else
    match (allowed.filter (fun x => decide (x < cur))).getLast? with
    | some v => v
    | none => if delta < 0 then allowed.headD 0 else allowed.getLastD 0

/-- `XTouchMini.do_next_value_for`: picks the next value from
`range_for encoder` relative to `faders[encoder]` and hands it to
`do_set_value`. -/
def do_next_value_for (faders : List Int) (encoder : Nat) (delta : Int) :
    List Int × List MidiOut :=
  do_set_value faders encoder (nextValue (range_for encoder) (faders.getD encoder 0) delta)

/-- `self.results[encoder]` of `XTouchMini`: the value list of the
function bound to the encoder. -/
def resultsFor (encoder : Nat) : Option (List String) :=
  (function_for_encoder encoder).bind results_for_function

/-- The value list of a parameter key (`results_for_function`, defaulting
to the empty list for unbound keys, which never occurs at call sites). -/
def valueListFor (key : String) : List String :=
  (results_for_function key).getD []

/-- The forward mapping performed by `MiniMidiHandler.propagate_to_midi`:
`range_for(encoder)[known_values.index(val)]`.  `noMatch` models the
`ValueError` caught by the caller; `indexError` models an uncaught
`IndexError` from `range_for(encoder)[idx]`. -/
inductive FwdResult where
  | pos (p : Int)
  | noMatch
  | indexError
deriving DecidableEq, Repr

/-- Forward mapping of one value of the parameter bound to `encoder`. -/
def forwardPos (encoder : Nat) (key val : String) : FwdResult :=
  match pyIndex (valueListFor key) val with
  | none => .noMatch
  | some idx =>
    match (range_for encoder)[idx]? with
    | some p => .pos p
    | none => .indexError

/-- The reverse mapping performed by `XTouchMini.on_midi`:
`self.results[encoder][self.range_for(encoder).index(self.faders[encoder])]`;
`none` models the uncaught `ValueError` / missing results list. -/
def reverseVal (encoder : Nat) (pos : Int) : Option String :=
  match pyIndex (range_for encoder) pos with
  | none => none
  | some idx => (resultsFor encoder).bind (fun rs => rs[idx]?)

/-- C1: the spec claims `reverse(encoder, forward(parameter, value))`
recovers `value` for every member of the ValueList of every bound
parameter, shutterspeed included.  The code breaks this for
shutterspeed: its ValueList has 23 entries but `range_for` returns only
`LED_STEPS[0:-5]`, i.e. 22 positions, so the forward lookup
`range_for(encoder)[idx]` raises `IndexError` at the last member "1/6"
(intent per the source comment is that the trimmed list still fits the
sub-range with "1/50" at the neutral position 64, which holds for the
first 22 members); consequently no ring position ever reverse-maps to
"1/6". -/
theorem shutterspeed_roundtrip_indexError :
    encoderOf "shutterspeed" = some 3 ∧
    "1/6" ∈ valueListFor "shutterspeed" ∧
    pyIndex (valueListFor "shutterspeed") "1/6" = some 22 ∧
    (range_for 3).length = 22 ∧
    forwardPos 3 "shutterspeed" "1/6" = .indexError ∧
    pyIndex (valueListFor "shutterspeed") "1/50" = some 13 ∧
    forwardPos 3 "shutterspeed" "1/50" = .pos 64 ∧
    (range_for 3).all (fun p => reverseVal 3 p ≠ some "1/6") := by decide

/-! ### Order facts about sorted sub-ranges (for the step logic) -/

theorem mem_of_head?_eq_some {l : List Int} {v : Int} (h : l.head? = some v) : v ∈ l := by
  cases l with
  | nil => simp at h
  | cons a t =>
    simp at h
    subst h
    exact List.mem_cons_self _ _

theorem getLast?_eq_some_of_ne_nil {l : List Int} (h : l ≠ []) : ∃ v, l.getLast? = some v := by
  induction l with
  | nil => exact absurd rfl h
  | cons a t ih =>
    cases t with
    | nil => exact ⟨a, rfl⟩
    | cons b t2 =>
      obtain ⟨v, hv⟩ := ih (by simp)
      exact ⟨v, by rw [List.getLast?_cons_cons]; exact hv⟩

theorem mem_getLastD {l : List Int} (d : Int) (h : l ≠ []) : l.getLastD d ∈ l := by
  obtain ⟨v, hv⟩ := getLast?_eq_some_of_ne_nil h
  rw [List.getLastD_eq_getLast?, hv]
  exact List.mem_of_getLast?_eq_some hv

theorem mem_headD {l : List Int} (d : Int) (h : l ≠ []) : l.headD d ∈ l := by
  cases l with
  | nil => exact absurd rfl h
  | cons a t => simp

/-- The head of a `<`-sorted list bounds every member of the list from below. -/
theorem pairwise_head_le {l : List Int} {v : Int}
    (hp : l.Pairwise (· < ·)) (h : l.head? = some v) : ∀ x ∈ l, v ≤ x := by
  cases l with
  | nil => simp at h
  | cons a t =>
    simp at h
    subst h
    intro x hx
    rcases List.mem_cons.mp hx with rfl | hx
    · exact le_refl x
    · exact le_of_lt ((List.pairwise_cons.mp hp).1 x hx)

theorem pairwise_le_getLast {l : List Int} {v : Int}
    (hp : l.Pairwise (· < ·)) (h : l.getLast? = some v) : ∀ x ∈ l, x ≤ v := by
  induction l with
  | nil => simp at h
  | cons a t ih =>
    cases t with
    | nil =>
      simp at h
      subst h
      intro x hx
      simp at hx
      exact le_of_eq hx
    | cons b t2 =>
      rw [List.getLast?_cons_cons] at h
      intro x hx
      rcases List.mem_cons.mp hx with rfl | hx
      · have hv : v ∈ b :: t2 := List.mem_of_getLast?_eq_some h
        exact le_of_lt ((List.pairwise_cons.mp hp).1 v hv)
      · exact ih (List.pairwise_cons.mp hp).2 h x hx

/-- Head of a filtered, `<`-sorted list: a member satisfying the
predicate that bounds all such members from below. -/
theorem filter_head_least {l : List Int} {p : Int → Bool} {v : Int}
    (hp : l.Pairwise (· < ·)) (h : (l.filter p).head? = some v) :
    v ∈ l ∧ p v = true ∧ ∀ x ∈ l, p x = true → v ≤ x := by
  have hv : v ∈ l.filter p := mem_of_head?_eq_some h
  have hv2 := List.mem_filter.mp hv
  refine ⟨hv2.1, hv2.2, ?_⟩
  intro x hx hpx
  exact pairwise_head_le (hp.filter p) h x (List.mem_filter.mpr ⟨hx, hpx⟩)

/-- Last element of a filtered, `<`-sorted list: a member satisfying the
predicate that bounds all such members from above. -/
theorem filter_getLast_greatest {l : List Int} {p : Int → Bool} {v : Int}
    (hp : l.Pairwise (· < ·)) (h : (l.filter p).getLast? = some v) :
    v ∈ l ∧ p v = true ∧ ∀ x ∈ l, p x = true → x ≤ v := by
  have hv : v ∈ l.filter p := List.mem_of_getLast?_eq_some h
  have hv2 := List.mem_filter.mp hv
  refine ⟨hv2.1, hv2.2, ?_⟩
  intro x hx hpx
  exact pairwise_le_getLast (hp.filter p) h x (List.mem_filter.mpr ⟨hx, hpx⟩)

/-- Every per-encoder sub-range is strictly increasing. -/
theorem range_for_sorted (encoder : Nat) : (range_for encoder).Pairwise (· < ·) := by
  unfold range_for
  split
  · decide
  · split
    · decide
    · split
      · decide
      · split
        · decide
        · decide

/-- Every per-encoder sub-range is non-empty. -/
theorem range_for_ne_nil (encoder : Nat) : range_for encoder ≠ [] := by
  unfold range_for
  split
  · decide
  · split
    · decide
    · split
      · decide
      · split
        · decide
        · decide

theorem nextValue_mem (allowed : List Int) (cur delta : Int) (h : allowed ≠ []) :
    nextValue allowed cur delta ∈ allowed := by
  unfold nextValue
  by_cases hd : 0 < delta
  · rw [if_pos hd]
    cases hh : (allowed.filter (fun x => decide (cur < x))).head? with
    | some v => exact List.mem_of_mem_filter (mem_of_head?_eq_some hh)
    | none => exact mem_getLastD 0 h
  · rw [if_neg hd]
    cases hh : (allowed.filter (fun x => decide (x < cur))).getLast? with
    | some v => exact List.mem_of_mem_filter (List.mem_of_getLast?_eq_some hh)
    | none =>
      by_cases hd2 : delta < 0
      · rw [if_pos hd2]
        exact mem_headD 0 h
      · rw [if_neg hd2]
        exact mem_getLastD 0 h

/-- Full behaviour of `nextValue` on a sorted, non-empty candidate list:
one minimal step up (resp. maximal step down), clamping to the extreme
when no candidate exists, depending only on the sign of the delta. -/
theorem nextValue_spec (allowed : List Int) (hp : allowed.Pairwise (· < ·))
    (hne : allowed ≠ []) (pos delta : Int) (hd : delta ≠ 0) :
    (0 < delta →
      ((∃ x ∈ allowed, pos < x) →
        pos < nextValue allowed pos delta ∧
        ∀ x ∈ allowed, pos < x → nextValue allowed pos delta ≤ x) ∧
      ((∀ x ∈ allowed, x ≤ pos) → ∀ x ∈ allowed, x ≤ nextValue allowed pos delta)) ∧
    (delta < 0 →
      ((∃ x ∈ allowed, x < pos) →
        nextValue allowed pos delta < pos ∧
        ∀ x ∈ allowed, x < pos → x ≤ nextValue allowed pos delta) ∧
      ((∀ x ∈ allowed, pos ≤ x) → ∀ x ∈ allowed, nextValue allowed pos delta ≤ x)) ∧
    (∀ d : Int, d ≠ 0 → (0 < d ↔ 0 < delta) →
      nextValue allowed pos d = nextValue allowed pos delta) := by
  refine ⟨?_, ?_, ?_⟩
  · intro hdpos
    unfold nextValue
    rw [if_pos hdpos]
    cases hh : (allowed.filter (fun x => decide (pos < x))).head? with
    | some v =>
      obtain ⟨hvmem, hvp, hvmin⟩ := filter_head_least hp hh
      have hposv : pos < v := of_decide_eq_true hvp
      constructor
      · intro _
        exact ⟨hposv, fun x hx hpx => hvmin x hx (decide_eq_true hpx)⟩
      · intro hall
        exact absurd (hall v hvmem) (not_le.mpr hposv)
    | none =>
      have hfil : allowed.filter (fun x => decide (pos < x)) = [] :=
        List.head?_eq_none_iff.mp hh
      have hnone : ∀ x ∈ allowed, ¬ pos < x := by
        intro x hx
        simpa using List.filter_eq_nil_iff.mp hfil x hx
      constructor
      · rintro ⟨x, hx, hpx⟩
        exact absurd hpx (hnone x hx)
      · intro _
        obtain ⟨v, hv⟩ := getLast?_eq_some_of_ne_nil hne
        rw [List.getLastD_eq_getLast?, hv]
        simpa using pairwise_le_getLast hp hv
  · intro hdneg
    have hnp : ¬ 0 < delta := by omega
    unfold nextValue
    rw [if_neg hnp]
    cases hh : (allowed.filter (fun x => decide (x < pos))).getLast? with
    | some v =>
      obtain ⟨hvmem, hvp, hvmax⟩ := filter_getLast_greatest hp hh
      have hvpos : v < pos := of_decide_eq_true hvp
      constructor
      · intro _
        exact ⟨hvpos, fun x hx hpx => hvmax x hx (decide_eq_true hpx)⟩
      · intro hall
        exact absurd (hall v hvmem) (not_le.mpr hvpos)
    | none =>
      have hfil : allowed.filter (fun x => decide (x < pos)) = [] := by
        cases hfc : allowed.filter (fun x => decide (x < pos)) with
        | nil => rfl
        | cons a t =>
          rw [hfc] at hh
          obtain ⟨v, hv⟩ := getLast?_eq_some_of_ne_nil (l := a :: t) (by simp)
          rw [hv] at hh
          exact absurd hh (by simp)
      have hnone : ∀ x ∈ allowed, ¬ x < pos := by
        intro x hx
        simpa using List.filter_eq_nil_iff.mp hfil x hx
      constructor
      · rintro ⟨x, hx, hpx⟩
        exact absurd hpx (hnone x hx)
      · intro _
        rw [if_pos hdneg]
        obtain ⟨v, hv⟩ := getLast?_eq_some_of_ne_nil hne
        cases allowed with
        | nil => exact absurd rfl hne
        | cons a t =>
          intro x hx
          simpa using pairwise_head_le hp (l := a :: t) rfl x hx
  · intro d hd0 hiff
    by_cases hdp : 0 < delta
    · have hdp2 : 0 < d := hiff.mpr hdp
      unfold nextValue
      rw [if_pos hdp, if_pos hdp2]
    · have hdn : delta < 0 := by omega
      have hdn2 : d < 0 := by
        rcases lt_trichotomy d 0 with h | h | h
        · exact h
        · exact absurd h hd0
        · exact absurd (hiff.mp h) hdp
      have hnp2 : ¬ 0 < d := by omega
      unfold nextValue
      rw [if_neg hnp2, if_neg hdp]
      cases (allowed.filter (fun x => decide (x < pos))).getLast? with
      | some v => rfl
      | none => rw [if_pos hdn, if_pos hdn2]

/-- C2: for every list-bound encoder (indices 1..7), any starting
position and any non-zero delta, one `do_next_value_for` call stores
exactly one step: for positive delta the smallest sub-range member
strictly above the current position (clamping to the sub-range maximum
when none exists), symmetrically for negative delta, and the chosen
value depends only on the sign of the delta, never on its magnitude. -/
theorem do_next_value_one_step (encoder : Nat) (he : encoder ∈ [1, 2, 3, 4, 5, 6, 7])
    (pos delta : Int) (hd : delta ≠ 0) :
    nextValue (range_for encoder) pos delta ∈ range_for encoder ∧
    (∀ faders : List Int, faders.getD encoder 0 = pos →
      (do_next_value_for faders encoder delta).1 =
        faders.set encoder (nextValue (range_for encoder) pos delta)) ∧
    (0 < delta →
      ((∃ x ∈ range_for encoder, pos < x) →
        pos < nextValue (range_for encoder) pos delta ∧
        ∀ x ∈ range_for encoder, pos < x → nextValue (range_for encoder) pos delta ≤ x) ∧
      ((∀ x ∈ range_for encoder, x ≤ pos) →
        ∀ x ∈ range_for encoder, x ≤ nextValue (range_for encoder) pos delta)) ∧
    (delta < 0 →
      ((∃ x ∈ range_for encoder, x < pos) →
        nextValue (range_for encoder) pos delta < pos ∧
        ∀ x ∈ range_for encoder, x < pos → x ≤ nextValue (range_for encoder) pos delta) ∧
      ((∀ x ∈ range_for encoder, pos ≤ x) →
        ∀ x ∈ range_for encoder, nextValue (range_for encoder) pos delta ≤ x)) ∧
    (∀ d : Int, d ≠ 0 → (0 < d ↔ 0 < delta) →
      nextValue (range_for encoder) pos d = nextValue (range_for encoder) pos delta) := by
  obtain ⟨h1, h2, h3⟩ :=
    nextValue_spec (range_for encoder) (range_for_sorted encoder) (range_for_ne_nil encoder)
      pos delta hd
  refine ⟨nextValue_mem _ _ _ (range_for_ne_nil encoder), ?_, h1, h2, h3⟩
  intro faders hf
  unfold do_next_value_for do_set_value
  rw [hf]

/-- Witness for `do_next_value_one_step`: aperture encoder (2), stored
position 64, delta 3 — a single minimal step up. -/
theorem do_next_value_one_step_witness :
    (2 ∈ [1, 2, 3, 4, 5, 6, 7]) ∧ ((3 : Int) ≠ 0) ∧
    nextValue (range_for 2) 64 3 ∈ range_for 2 ∧
    (64 < nextValue (range_for 2) 64 3 ∧
      ∀ x ∈ range_for 2, 64 < x → nextValue (range_for 2) 64 3 ≤ x) :=
  ⟨by decide, by decide,
   (do_next_value_one_step 2 (by decide) 64 3 (by decide)).1,
   ((do_next_value_one_step 2 (by decide) 64 3 (by decide)).2.2.1 (by decide)).1 (by decide)⟩

/-- C3 counterexample: turning the aperture encoder (index 2, full
`LED_STEPS` sub-range) one notch down from stored position 0 stores the
sentinel -1 into the faders array, renders blink-left, and the stored
sentinel is then resolved by the reverse index lookup to the aperture
value "1" — the sentinel is persisted and fed back, contrary to the
claim. -/
theorem stored_sentinel_cex :
    (do_next_value_for [64, 64, 0, 64, 64, 64, 64, 64] 2 (-1)).1 =
      [64, 64, -1, 64, 64, 64, 64, 64] ∧
    (do_next_value_for [64, 64, 0, 64, 64, 64, 64, 64] 2 (-1)).2 =
      leds_special 2 "blink-left" ∧
    (-1 : Int) ∈ range_for 2 ∧
    reverseVal 2 (-1) = some "1" := by decide

/-- C3 amended: `do_set_value` stores every value it is given, sentinels
included; what holds instead is that an advance always stores a member
of the sub-range, so the stored position can equal -1 or 128 exactly
when the sub-range itself contains that sentinel (the full `LED_STEPS`
encoders such as aperture and iso, and -1 for shutterspeed), and for the
encoders whose sub-range excludes both sentinels — exposurecompensation
(1), colortemperature (5) and the two white-balance shifts (6, 7) — the
stored position never equals -1 or 128. -/
theorem advance_stays_in_subrange (encoder : Nat)
    (he : encoder ∈ [1, 2, 3, 4, 5, 6, 7]) (faders : List Int) (delta : Int) :
    nextValue (range_for encoder) (faders.getD encoder 0) delta ∈ range_for encoder ∧
    (do_next_value_for faders encoder delta).1 =
      faders.set encoder (nextValue (range_for encoder) (faders.getD encoder 0) delta) ∧
    (encoder = 1 ∨ encoder = 5 ∨ encoder = 6 ∨ encoder = 7 →
      nextValue (range_for encoder) (faders.getD encoder 0) delta ≠ -1 ∧
      nextValue (range_for encoder) (faders.getD encoder 0) delta ≠ 128) := by
  have hne : range_for encoder ≠ [] := range_for_ne_nil encoder
  refine ⟨nextValue_mem _ _ _ hne, rfl, ?_⟩
  intro hcase
  have hmem := nextValue_mem (range_for encoder) (faders.getD encoder 0) delta hne
  rcases hcase with rfl | rfl | rfl | rfl <;>
    refine ⟨fun hv => ?_, fun hv => ?_⟩ <;> rw [hv] at hmem <;> revert hmem <;> decide

/-- Witness for `advance_stays_in_subrange` at encoder 1, one step down
from the initial all-64 faders. -/
theorem advance_stays_in_subrange_witness :
    (1 ∈ [1, 2, 3, 4, 5, 6, 7]) ∧
    nextValue (range_for 1) (([64, 64, 64, 64, 64, 64, 64, 64] : List Int).getD 1 0) (-1) ∈
      range_for 1 ∧
    nextValue (range_for 1) (([64, 64, 64, 64, 64, 64, 64, 64] : List Int).getD 1 0) (-1) ≠ -1 :=
  ⟨by decide,
   (advance_stays_in_subrange 1 (by decide) [64, 64, 64, 64, 64, 64, 64, 64] (-1)).1,
   ((advance_stays_in_subrange 1 (by decide) [64, 64, 64, 64, 64, 64, 64, 64] (-1)).2.2
     (Or.inl rfl)).1⟩

/-! ## xtouch.py -/

deriving instance DecidableEq for Except

/-- A raw MIDI message as seen by the decoders.  Unused fields of a
given message type are zero. -/
structure MidiMsg where
  mtype : String
  channel : Int
  control : Int
  value : Int
  note : Int
deriving DecidableEq, Repr

/-- `XTouch.KEYS`: zone byte to (port to logical button name). -/
def KEYS : List (Int × List (Int × String)) :=
  [(0x0c, [(5, "hui")]),
   (0x0d, [(0, "down"), (1, "left"), (2, "zoom"), (3, "right"), (4, "up"),
           (5, "scrub"), (6, "solo")]),
   (0x0e, [(1, "previous"), (2, "next"), (3, "stop"), (4, "play"), (5, "rec")]),
   (0x0f, [(2, "click"), (3, "cycle"), (4, "marker")]),
   (0x10, [(0, "nudge"), (2, "drop"), (3, "replace")])]

/-- `KEYS` dict lookup by zone byte. -/
def keysFind (zone : Int) : Option (List (Int × String)) :=
  (KEYS.find? (fun z => z.1 = zone)).map Prod.snd

/-- `candidates.get(value, None)` on one zone table. -/
def keyLookup (cands : List (Int × String)) (v : Int) : Option String :=
  (cands.find? (fun kv => kv.1 = v)).map Prod.snd

/-- A decoded X-Touch event: jog wheel delta or button edge. -/
inductive XTEvent where
  | wheel (diff : Int)
  | button (key : String) (pressed : Bool)
deriving DecidableEq, Repr

/-- Jog wheel decoding from `XTouch.parse_midi`: raw values above 0x40
become `value - 0x40` (positive), others become `-value` (negative for
any positive raw value). -/
def wheelDelta (v : Int) : Int :=
  if 0x40 < v then v - 0x40 else -v

/-- Encoder decoding from `XTouchMini.on_midi`: raw values above 120
become `value - 128` (negative), others are passed through. -/
def miniDelta (v : Int) : Int :=
  if 120 < v then v - 128 else v

/-- `XTouch.parse_midi` as a state transition.  The state is
`previous_value` (`none` = awaiting a zone message).  The returned state
reflects the mutations performed before a `raise`, because the Python
exception propagates out of the method with the object state as-is:
an unexpected zone keeps the old pending zone, an unknown zone is
recorded (the assignment precedes the membership check), and an unknown
key keeps the pending zone.  `Except.error` carries the exception text.
`.ok none` is the event-free return after a zone message. -/
def parse_midi (prev : Option Int) (m : MidiMsg) :
    Option Int × Except String (Option XTEvent) :=
  if m.mtype = "control_change" then
    if m.channel ≠ 0 then (prev, .error "X-Touch sent unrecognized message")
    else if m.control = 0x0f then
      if prev.isSome then (prev, .error "X-Touch: zone while previous value recorded")
      else if (keysFind m.value).isSome then (some m.value, .ok none)
      else (some m.value, .error "X-Touch: message not recognized for a first event")
    else if m.control = 0x0d then
      (prev, .ok (some (.wheel (wheelDelta m.value))))
    else if m.control = 0x2f then
      match prev with
      | none => (none, .error "X-Touch: key event with no previous message recorded")
      | some z =>
        match keysFind z with
        | none => (some z, .error "KeyError")
        | some cands =>
          match keyLookup cands m.value with
          | some key => (none, .ok (some (.button key false)))
          | none =>
            match keyLookup cands (m.value - 0x40) with
            | some key => (none, .ok (some (.button key true)))
            | none => (some z, .error "X-Touch: unrecognized key event")
    else (prev, .error "X-Touch: unhandled control")
  else (prev, .error "X-Touch: unhandled message")

/-- C4 counterexample: a second zone message (zone 0x0d) arriving while
zone 0x0c is already recorded is a protocol violation; the decoder does
raise, but `previous_value` is NOT cleared — the machine stays in the
awaiting-key state with the stale zone 0x0c, contrary to the claim that
every violation resets it to awaiting-zone. -/
theorem parse_midi_violation_cex :
    parse_midi (some 0x0c) ⟨"control_change", 0, 0x0f, 0x0d, 0⟩ =
      (some 0x0c, .error "X-Touch: zone while previous value recorded") ∧
    (some (0x0c : Int) ≠ (none : Option Int)) := by decide

/-- C4 amended: the pairing machine clears `previous_value` after every
resolved zone/key pair and raises a decode fault on every protocol
violation, but a violation does not reset the state: an unexpected zone
while awaiting a key keeps the pending zone, an unknown zone byte is
itself recorded as pending, and an unknown key code keeps the pending
zone. -/
theorem parse_midi_state_machine (prev : Option Int) (m : MidiMsg) :
    (∀ k p, (parse_midi prev m).2 = .ok (some (.button k p)) →
      (parse_midi prev m).1 = none) ∧
    (m.mtype = "control_change" → m.channel = 0 → m.control = 0x0f → prev ≠ none →
      (parse_midi prev m).1 = prev ∧
      (parse_midi prev m).2 = .error "X-Touch: zone while previous value recorded") ∧
    (m.mtype = "control_change" → m.channel = 0 → m.control = 0x0f → prev = none →
      keysFind m.value = none →
      (parse_midi prev m).1 = some m.value ∧
      (parse_midi prev m).2 = .error "X-Touch: message not recognized for a first event") ∧
    (∀ z cands, m.mtype = "control_change" → m.channel = 0 → m.control = 0x2f →
      prev = some z → keysFind z = some cands →
      keyLookup cands m.value = none → keyLookup cands (m.value - 0x40) = none →
      (parse_midi prev m).1 = some z ∧
      (parse_midi prev m).2 = .error "X-Touch: unrecognized key event") := by
  refine ⟨?_, ?_, ?_, ?_⟩
  · intro k p h
    unfold parse_midi at h ⊢
    repeat' split at h
    all_goals simp_all
  · intro h1 h2 h3 h4
    have hs : prev.isSome := Option.isSome_iff_ne_none.mpr h4
    unfold parse_midi
    rw [if_pos h1, if_neg (by simp [h2]), if_pos h3, if_pos hs]
    exact ⟨rfl, rfl⟩
  · intro h1 h2 h3 h4 h5
    unfold parse_midi
    rw [if_pos h1, if_neg (by simp [h2]), if_pos h3, if_neg (by simp [h4]),
        if_neg (by simp [h5])]
    exact ⟨rfl, rfl⟩
  · intro z cands h1 h2 h3 h4 h5 h6 h7
    unfold parse_midi
    rw [if_pos h1, if_neg (by simp [h2]), if_neg (by rw [h3]; decide),
        if_neg (by rw [h3]; decide), if_pos h3, h4]
    simp [h5, h6, h7]

/-- Witness for `parse_midi_state_machine`: the violation branch at a
concrete recorded zone 0x0c and a concrete zone message. -/
theorem parse_midi_state_machine_witness :
    (parse_midi (some 0x0c) ⟨"control_change", 0, 0x0f, 0x0d, 0⟩).1 = some 0x0c ∧
    (parse_midi (some 0x0c) ⟨"control_change", 0, 0x0f, 0x0d, 0⟩).2 =
      .error "X-Touch: zone while previous value recorded" :=
  (parse_midi_state_machine (some 0x0c) ⟨"control_change", 0, 0x0f, 0x0d, 0⟩).2.1
    rfl rfl rfl (by decide)

/-- C5 counterexample: the raw jog-wheel value 0x41 is above the 0x40
midpoint, yet `XTouch.parse_midi` decodes it to the POSITIVE step +1
(and the below-midpoint value 0x01 decodes to the negative step -1) —
the X-Touch wheel orientation is the opposite of the claimed
"above midpoint means negative". -/
theorem wheel_sign_cex :
    (parse_midi none ⟨"control_change", 0, 0x0d, 0x41, 0⟩).2 =
      .ok (some (.wheel 1)) ∧
    ¬ ((1 : Int) < 0) ∧
    (0x40 : Int) < 0x41 ∧
    (parse_midi none ⟨"control_change", 0, 0x0d, 0x01, 0⟩).2 =
      .ok (some (.wheel (-1))) := by decide

/-- C5 amended: for the X-Touch Mini encoders the claim holds (raw
values above 120 decode negative, positive raw values up to 120 decode
positive), while for the X-Touch jog wheel the orientation is inverted:
raw values above the 0x40 midpoint decode positive and positive raw
values up to 0x40 decode negative. -/
theorem relative_decode_signs (v : Int) (h0 : 0 < v) (h127 : v ≤ 127) :
    (120 < v → miniDelta v < 0) ∧
    (v ≤ 120 → 0 < miniDelta v) ∧
    (0x40 < v → 0 < wheelDelta v) ∧
    (v ≤ 0x40 → wheelDelta v < 0) := by
  unfold miniDelta wheelDelta
  refine ⟨?_, ?_, ?_, ?_⟩ <;> intro h
  · rw [if_pos h]; omega
  · rw [if_neg (by omega)]; omega
  · rw [if_pos h]; omega
  · rw [if_neg (by omega)]; omega

/-- Witness for `relative_decode_signs` at raw value 121 (Mini: hard
left, negative step). -/
theorem relative_decode_signs_witness :
    ((0 : Int) < 121 ∧ (121 : Int) ≤ 127) ∧ miniDelta 121 < 0 :=
  ⟨⟨by decide, by decide⟩,
   (relative_decode_signs 121 (by decide) (by decide)).1 (by decide)⟩

/-! ## gui.py — MiniMidiHandler.propagate_to_midi and camera status -/

/-- The read-only view of the `_data` dict of a `CameraManager`:
`read_property` per key, with Python `None` as `Option.none`. -/
def CameraData : Type := String → Option String

/-- The index lookup `known_values.index(val)` of `propagate_to_midi`,
with `none` for the caught `ValueError` (value absent, or the stored
property is Python `None`). -/
def forwardIdx (cam : CameraData) (key : String) : Option Nat :=
  match cam key with
  | none => none
  | some v => pyIndex (valueListFor key) v

/-- The trailing colortemperature/whitebalance override of
`propagate_to_midi`: nothing when the sibling whitebalance is
"Color Temperature", all-on for "Auto", blink-all otherwise (including a
missing value). -/
def ctExtra (cam : CameraData) (encoder : Nat) : List MidiOut :=
  match cam "whitebalance" with
  | some wb =>
    if wb = "Color Temperature" then []
    else if wb = "Auto" then leds_special encoder "all-on"
    else leds_special encoder "blink-all"
  | none => leds_special encoder "blink-all"

/-- The per-encoder loop of `MiniMidiHandler.propagate_to_midi` over the
`ENCODER_TO_FUNCTION` entries.  Accumulates sent MIDI messages; the
final `Bool` is `true` when the uncaught `IndexError` of
`range_for(encoder)[idx]` aborts the loop (later encoders unprocessed,
earlier effects kept). -/
def propagateGo (cam : CameraData) :
    List (String × Nat) → List Int → List MidiOut → List Int × List MidiOut × Bool
  | [], faders, outs => (faders, outs, false)
  | (key, encoder) :: rest, faders, outs =>
    if key = "focus" then
      propagateGo cam rest faders
        (outs ++ (if cam "movieservoaf" = some "On" then leds_special encoder "all-on"
                  else leds_special encoder "blink-center"))
    else
      match forwardIdx cam key with
      | some idx =>
        match (range_for encoder)[idx]? with
        | none => (faders, outs, true)
        | some mv =>
          propagateGo cam rest (do_set_value faders encoder mv).1
            (outs ++ (do_set_value faders encoder mv).2 ++
             (if key = "colortemperature" then ctExtra cam encoder else []))
      | none =>
        propagateGo cam rest faders
          (outs ++ leds_special encoder "blink-all" ++
           (if key = "colortemperature" then ctExtra cam encoder else []))

/-- The all-encoders-off render of `propagate_to_midi` when no camera
model is known. -/
def allOffOuts : List MidiOut :=
  ENCODER_TO_FUNCTION.flatMap (fun kv => leds_special kv.2 "off")

/-- `MiniMidiHandler.propagate_to_midi`: blank everything when
`cameramodel` is `None`, otherwise run the per-encoder loop. -/
def propagate_to_midi (cam : CameraData) (faders : List Int) :
    List Int × List MidiOut × Bool :=
  if cam "cameramodel" = none then (faders, allOffOuts, false)
  else propagateGo cam ENCODER_TO_FUNCTION faders []

theorem propagateGo_outs_grow (cam : CameraData) :
    ∀ (l : List (String × Nat)) (faders : List Int) (outs : List MidiOut),
      ∃ t, (propagateGo cam l faders outs).2.1 = outs ++ t := by
  intro l
  induction l with
  | nil =>
    intro faders outs
    exact ⟨[], by simp [propagateGo]⟩
  | cons hd rest ih =>
    intro faders outs
    obtain ⟨key, encoder⟩ := hd
    by_cases hf : key = "focus"
    · simp only [propagateGo, if_pos hf]
      obtain ⟨t, ht⟩ := ih faders
        (outs ++ (if cam "movieservoaf" = some "On" then leds_special encoder "all-on"
                  else leds_special encoder "blink-center"))
      exact ⟨_, by rw [ht, List.append_assoc]⟩
    · cases hidx : forwardIdx cam key with
      | none =>
        simp only [propagateGo, if_neg hf, hidx]
        obtain ⟨t, ht⟩ := ih faders
          (outs ++ leds_special encoder "blink-all" ++
           (if key = "colortemperature" then ctExtra cam encoder else []))
        exact ⟨_, by rw [ht, List.append_assoc, List.append_assoc]⟩
      | some idx =>
        cases hmv : (range_for encoder)[idx]? with
        | none => exact ⟨[], by simp [propagateGo, if_neg hf, hidx, hmv]⟩
        | some mv =>
          simp only [propagateGo, if_neg hf, hidx, hmv]
          obtain ⟨t, ht⟩ := ih (do_set_value faders encoder mv).1
            (outs ++ (do_set_value faders encoder mv).2 ++
             (if key = "colortemperature" then ctExtra cam encoder else []))
          exact ⟨_, by rw [ht, List.append_assoc, List.append_assoc]⟩

theorem propagateGo_faders_untouched (cam : CameraData) (e : Nat) :
    ∀ (l : List (String × Nat)) (faders : List Int) (outs : List MidiOut),
      (∀ kv ∈ l, kv.2 ≠ e) →
      (propagateGo cam l faders outs).1[e]? = faders[e]? := by
  intro l
  induction l with
  | nil =>
    intro faders outs _
    simp [propagateGo]
  | cons hd rest ih =>
    intro faders outs hl
    obtain ⟨key, encoder⟩ := hd
    have hne : encoder ≠ e := hl (key, encoder) (List.mem_cons_self _ _)
    have hl2 : ∀ kv ∈ rest, kv.2 ≠ e := fun kv hkv => hl kv (List.mem_cons_of_mem _ hkv)
    by_cases hf : key = "focus"
    · simp only [propagateGo, if_pos hf]
      exact ih _ _ hl2
    · cases hidx : forwardIdx cam key with
      | none =>
        simp only [propagateGo, if_neg hf, hidx]
        exact ih _ _ hl2
      | some idx =>
        cases hmv : (range_for encoder)[idx]? with
        | none => simp [propagateGo, if_neg hf, hidx, hmv]
        | some mv =>
          simp only [propagateGo, if_neg hf, hidx, hmv]
          rw [ih _ _ hl2]
          show (faders.set encoder mv)[e]? = faders[e]?
          exact List.getElem?_set_ne hne

theorem propagateGo_no_match (cam : CameraData) (key : String) (e : Nat)
    (hk : key ≠ "focus") (hnf : forwardIdx cam key = none) :
    ∀ (l : List (String × Nat)) (faders : List Int) (outs : List MidiOut),
      (key, e) ∈ l → (l.map Prod.snd).Nodup →
      (propagateGo cam l faders outs).2.2 = false →
      MidiOut.cc 0 (e + 1 + 8) 28 ∈ (propagateGo cam l faders outs).2.1 ∧
      (propagateGo cam l faders outs).1[e]? = faders[e]? := by
  intro l
  induction l with
  | nil =>
    intro faders outs hmem
    simp at hmem
  | cons hd rest ih =>
    intro faders outs hmem hnd hok
    obtain ⟨k0, e0⟩ := hd
    have hnd2 : (e0 :: rest.map Prod.snd).Nodup := by simpa using hnd
    by_cases hhd : (k0, e0) = (key, e)
    · injection hhd with h1 h2
      subst h1
      subst h2
      simp only [propagateGo, if_neg hk, hnf]
      have hrest : ∀ kv ∈ rest, kv.2 ≠ e0 := by
        intro kv hkv hkve
        exact (List.nodup_cons.mp hnd2).1
          (List.mem_map.mpr ⟨kv, hkv, hkve⟩)
      constructor
      · obtain ⟨t, ht⟩ := propagateGo_outs_grow cam rest faders
          (outs ++ leds_special e0 "blink-all" ++
           (if k0 = "colortemperature" then ctExtra cam e0 else []))
        rw [ht]
        have hls : leds_special e0 "blink-all" = [MidiOut.cc 0 (e0 + 1 + 8) 28] := rfl
        simp [hls]
      · exact propagateGo_faders_untouched cam e0 rest faders _ hrest
    · have hmem2 : (key, e) ∈ rest := by
        rcases List.mem_cons.mp hmem with h | h
        · exact absurd h.symm hhd
        · exact h
      have he0 : e0 ≠ e := by
        intro h
        subst h
        exact (List.nodup_cons.mp hnd2).1
          (List.mem_map.mpr ⟨(key, e0), hmem2, rfl⟩)
      have hndrest : (rest.map Prod.snd).Nodup := (List.nodup_cons.mp hnd2).2
      by_cases hf : k0 = "focus"
      · simp only [propagateGo, if_pos hf] at hok ⊢
        exact ih _ _ hmem2 hndrest hok
      · cases hidx : forwardIdx cam k0 with
        | none =>
          simp only [propagateGo, if_neg hf, hidx] at hok ⊢
          exact ih _ _ hmem2 hndrest hok
        | some idx =>
          cases hmv : (range_for e0)[idx]? with
          | none =>
            simp only [propagateGo, if_neg hf, hidx, hmv] at hok
            simp at hok
          | some mv =>
            simp only [propagateGo, if_neg hf, hidx, hmv] at hok ⊢
            refine ⟨(ih _ _ hmem2 hndrest hok).1, ?_⟩
            rw [(ih _ _ hmem2 hndrest hok).2]
            show (faders.set e0 mv)[e]? = faders[e]?
            exact List.getElem?_set_ne he0

/-- C6: for every list-bound encoder, when the stored authoritative
value for its parameter is not a member of the known value list (or is
Python `None`), a completed `propagate_to_midi` pass emits the blink-all
indicator (value 28 on the LED control of that encoder), and
the stored faders entry for that encoder keeps its pre-existing
value — no fallback position is stored. -/
theorem propagate_no_match (cam : CameraData) (faders : List Int) (key : String)
    (encoder : Nat)
    (hmem : (key, encoder) ∈ ENCODER_TO_FUNCTION) (hk : key ≠ "focus")
    (hcm : ¬ cam "cameramodel" = none)
    (hnf : forwardIdx cam key = none)
    (hok : (propagate_to_midi cam faders).2.2 = false) :
    MidiOut.cc 0 (encoder + 1 + 8) 28 ∈ (propagate_to_midi cam faders).2.1 ∧
    (propagate_to_midi cam faders).1[encoder]? = faders[encoder]? := by
  unfold propagate_to_midi at hok ⊢
  rw [if_neg hcm] at hok ⊢
  exact propagateGo_no_match cam key encoder hk hnf ENCODER_TO_FUNCTION faders []
    hmem (by decide) hok

/-- A camera whose iso value "999" is not in the known iso value list. -/
def witnessCam : CameraData := fun k =>
  if k = "cameramodel" then some "Canon EOS R6"
  else if k = "iso" then some "999"
  else none

/-- Witness for `propagate_no_match`: iso encoder 4 with value "999". -/
theorem propagate_no_match_witness :
    (("iso", 4) ∈ ENCODER_TO_FUNCTION ∧ ¬ witnessCam "cameramodel" = none ∧
      forwardIdx witnessCam "iso" = none ∧
      (propagate_to_midi witnessCam (List.replicate 8 VALUE_MID)).2.2 = false) ∧
    MidiOut.cc 0 (4 + 1 + 8) 28 ∈
      (propagate_to_midi witnessCam (List.replicate 8 VALUE_MID)).2.1 ∧
    (propagate_to_midi witnessCam (List.replicate 8 VALUE_MID)).1[4]? =
      (List.replicate 8 VALUE_MID : List Int)[4]? :=
  ⟨⟨by decide, by decide, by decide, by decide⟩,
   propagate_no_match witnessCam (List.replicate 8 VALUE_MID) "iso" 4
     (by decide) (by decide) (by decide) (by decide) (by decide)⟩

/-- A `CameraManager` as seen by the status handler: its `_data` view
and its `_status` field. -/
structure CameraState where
  data : CameraData
  status : Option String

/-- `update_camera_status` from gui.py for one message: stores the
payload into `_status` and calls `update_data(dict())`, which changes no
data key and only triggers a re-render via `camera_changed`. -/
def update_camera_status (cam : CameraState) (payload : String) : CameraState :=
  { cam with status := some payload }

/-- The initial `_data` dict of `CameraManager.__init__`, with the given
`cameramodel`. -/
def initialCamData (model : Option String) : CameraData := fun k =>
  if k = "cameramodel" then model
  else if k = "lensname" then none
  else if k = "autoexposuremode" then some "<aemode>"
  else if k = "autoexposuremodedial" then some "<dial>"
  else if k = "aperture" then some "<aperture>"
  else if k = "shutterspeed" then some "<shutter>"
  else if k = "exposurecompensation" then some "<exp>"
  else if k = "iso" then some "<iso>"
  else if k = "movieservoaf" then some "<af>"
  else if k = "whitebalance" then some "<wb>"
  else if k = "colortemperature" then some "<color>"
  else if k = "whitebalanceadjusta" then some "-1"
  else if k = "whitebalanceadjustb" then some "0"
  else none

/-- C9 counterexample: an explicit "offline" status message on a camera
whose model is known does NOT blank the encoders: the triggered
re-render is not the all-off render (it still emits, e.g., blink-center
for the focus encoder), because blanking is keyed solely on
`cameramodel is None`, which the status handler never touches. -/
theorem offline_no_blank_cex :
    (update_camera_status ⟨initialCamData (some "Canon EOS R6"), some "online"⟩
        "offline").status = some "offline" ∧
    (update_camera_status ⟨initialCamData (some "Canon EOS R6"), some "online"⟩
        "offline").data "cameramodel" = some "Canon EOS R6" ∧
    (propagate_to_midi
        (update_camera_status ⟨initialCamData (some "Canon EOS R6"), some "online"⟩
          "offline").data (List.replicate 8 VALUE_MID)).2.1 ≠ allOffOuts ∧
    MidiOut.cc 0 9 20 ∈
      (propagate_to_midi
        (update_camera_status ⟨initialCamData (some "Canon EOS R6"), some "online"⟩
          "offline").data (List.replicate 8 VALUE_MID)).2.1 := by decide

/-- C9 amended: a status message (any payload, "offline" included) only
stores the status text and triggers a re-render with unchanged data; the
re-render blanks all encoders exactly when the stored `cameramodel` is
`None`, independently of the status value. -/
theorem update_status_render (cam : CameraState) (payload : String) (faders : List Int) :
    (update_camera_status cam payload).data = cam.data ∧
    (update_camera_status cam payload).status = some payload ∧
    (cam.data "cameramodel" = none →
      propagate_to_midi (update_camera_status cam payload).data faders =
        (faders, allOffOuts, false)) := by
  refine ⟨rfl, rfl, ?_⟩
  intro h
  have h2 : (update_camera_status cam payload).data "cameramodel" = none := h
  unfold propagate_to_midi
  rw [if_pos h2]

/-- Witness for `update_status_render`: a never-seen camera
(`cameramodel` still `None`) going offline is rendered all-off. -/
theorem update_status_render_witness :
    ((⟨initialCamData none, none⟩ : CameraState).data "cameramodel" = none) ∧
    propagate_to_midi
        (update_camera_status ⟨initialCamData none, none⟩ "offline").data
        (List.replicate 8 VALUE_MID) =
      (List.replicate 8 VALUE_MID, allOffOuts, false) :=
  ⟨by decide,
   (update_status_render ⟨initialCamData none, none⟩ "offline"
     (List.replicate 8 VALUE_MID)).2.2 (by decide)⟩

/-! ## tally.py — the device owner -/

/-- gphoto2 widget kinds distinguished by `apply_command` (radio and
menu widgets have a choice list check; everything else does not). -/
inductive WType where
  | radio
  | menu
  | text
  | range
deriving DecidableEq, Repr

/-- One camera config widget: kind, allowed choices and current value. -/
structure Widget where
  wtype : WType
  choices : List String
  value : String
deriving DecidableEq, Repr

/-- The camera configuration as returned by `get_config`:
name-to-widget mapping; a missing name models `GPhoto2Error`. -/
def CamConfig : Type := List (String × Widget)

/-- `cfg.get_child_by_name`. -/
def getWidget (cfg : CamConfig) (name : String) : Option Widget :=
  (cfg.find? (fun kv => kv.1 = name)).map Prod.snd

/-- `set_single_config`: replace the widget stored under `name`. -/
def setWidget (cfg : CamConfig) (name : String) (w : Widget) : CamConfig :=
  cfg.map (fun kv => if kv.1 = name then (name, w) else kv)

/-- `Camera.PROPS_RO` from tally.py. -/
def PROPS_RO : List String :=
  ["cameramodel", "lensname", "autoexposuremode", "autoexposuremodedial"]

/-- `Camera.PROPS_WO` from tally.py. -/
def PROPS_WO : List String := ["manualfocusdrive"]

/-- `Camera.PROPS_RW` from tally.py. -/
def PROPS_RW : List String :=
  ["aperture", "shutterspeed", "exposurecompensation", "iso", "movieservoaf",
   "whitebalance", "colortemperature", "whitebalanceadjusta", "whitebalanceadjustb"]

/-- The `status` dict built by `Camera.on_config_changed`: every
readable property with its current value (`None` on `GPhoto2Error`). -/
def statusOf (cfg : CamConfig) : List (String × Option String) :=
  (PROPS_RO ++ PROPS_RW).map (fun n => (n, (getWidget cfg n).map Widget.value))

/-- The `allowed` dict built by the `DUMP` branch of
`Camera.apply_command`: choices per property, skipping properties whose
widget lookup raises. -/
def allowedOf (cfg : CamConfig) : List (String × List String) :=
  (PROPS_RW ++ PROPS_RO).filterMap
    (fun k => (getWidget cfg k).map (fun w => (k, w.choices)))

/-- The owner state: camera configuration plus the change-suppression
cache `old_status`. -/
structure TCam where
  config : CamConfig
  oldStatus : Option (List (String × Option String))

/-- Externally visible effects of the owner. -/
inductive TEffect where
  | publishCurrent (st : List (String × Option String))
  | publishAllowed (al : List (String × List String))
  | setSingle (name value : String)
deriving DecidableEq, Repr

/-- `Camera.on_config_changed` from tally.py: recompute the full status
and publish it (via `event_handler`) only when it differs from
`old_status`. -/
def on_config_changed (cam : TCam) : TCam × List TEffect :=
  let status := statusOf cam.config
  if cam.oldStatus ≠ some status then
    ({ cam with oldStatus := some status }, [.publishCurrent status])
  else (cam, [])

/-- The non-`DUMP` arm of `Camera.apply_command` without the
colortemperature chaining: unsupported name or unknown widget is
dropped, a radio/menu value outside the choice list is rejected, an
unchanged value is skipped, otherwise the widget is written and
`set_single_config` issued.  The `Bool` reports whether a set was
performed (the condition for the chained whitebalance update). -/
def applyCommandSet (cam : TCam) (what value : String) :
    TCam × List TEffect × Bool :=
  if what ∈ PROPS_RW ++ PROPS_WO then
    match getWidget cam.config what with
    | none => (cam, [], false)
    | some w =>
      if (w.wtype = .radio ∨ w.wtype = .menu) ∧ value ∉ w.choices then
        (cam, [], false)
      else if w.value = value then (cam, [], false)
      else
        ({ cam with config := setWidget cam.config what { w with value := value } },
         [.setSingle what value], true)
  else (cam, [], false)

/-- `Camera.apply_command` from tally.py.  The `DUMP` branch clears
`old_status`, runs `on_config_changed` (which therefore always
publishes the full current snapshot) and publishes the full allowed
snapshot.  A successful `colortemperature` set chains an
`apply_command("whitebalance", "Color Temperature")`, which cannot
chain further, so it is unfolded into `applyCommandSet`. -/
def apply_command (cam : TCam) (what value : String) : TCam × List TEffect :=
  if what = "DUMP" then
    let r := on_config_changed { cam with oldStatus := none }
    (r.1, r.2 ++ [.publishAllowed (allowedOf r.1.config)])
  else
    let r := applyCommandSet cam what value
    if what = "colortemperature" ∧ r.2.2 then
      let r2 := applyCommandSet r.1 "whitebalance" "Color Temperature"
      (r2.1, r.2.1 ++ r2.2.1)
    else (r.1, r.2.1)

/-- `do_republish` from tally.py: every message on the `camera/dump-all`
topic enqueues the command `["DUMP", None]`, whatever the payload. -/
def do_republish_cmd (payload : String) : String × Option String :=
  ("DUMP", none)

/-- C7: a set-request for a radio/menu property whose value is not in
the current choice list is rejected by the owner: the configuration is
left untouched, no `set_single_config` is issued and nothing is
published, so the status snapshot after the request equals the
pre-request snapshot. -/
theorem apply_command_rejects_unknown_value (cam : TCam) (what value : String)
    (w : Widget)
    (hmem : what ∈ PROPS_RW ++ PROPS_WO)
    (hw : getWidget cam.config what = some w)
    (ht : w.wtype = .radio ∨ w.wtype = .menu)
    (hv : value ∉ w.choices) :
    apply_command cam what value = (cam, []) ∧
    statusOf (apply_command cam what value).1.config = statusOf cam.config := by
  have hdump : what ≠ "DUMP" := by
    intro h
    subst h
    revert hmem
    decide
  have hset : applyCommandSet cam what value = (cam, [], false) := by
    unfold applyCommandSet
    rw [if_pos hmem, hw]
    simp only [if_pos (And.intro ht hv)]
  have hmain : apply_command cam what value = (cam, []) := by
    unfold apply_command
    rw [if_neg hdump, hset]
    simp
  exact ⟨hmain, by rw [hmain]⟩

/-- A small concrete owner configuration whose iso widget is a radio
with realistic choices. -/
def isoOwner : TCam :=
  ⟨[("iso", ⟨.radio, ["Auto", "100", "200", "400", "800"], "400"⟩),
    ("cameramodel", ⟨.text, [], "Canon EOS R6"⟩)], none⟩

/-- Witness for `apply_command_rejects_unknown_value`: the spec scenario
of a set-request for "999" on iso. -/
theorem apply_command_rejects_unknown_value_witness :
    ("iso" ∈ PROPS_RW ++ PROPS_WO ∧
      getWidget isoOwner.config "iso" =
        some ⟨.radio, ["Auto", "100", "200", "400", "800"], "400"⟩ ∧
      "999" ∉ (["Auto", "100", "200", "400", "800"] : List String)) ∧
    apply_command isoOwner "iso" "999" = (isoOwner, []) ∧
    statusOf (apply_command isoOwner "iso" "999").1.config = statusOf isoOwner.config :=
  ⟨⟨by decide, by decide, by decide⟩,
   apply_command_rejects_unknown_value isoOwner "iso" "999"
     ⟨.radio, ["Auto", "100", "200", "400", "800"], "400"⟩
     (by decide) (by decide) (Or.inl rfl) (by decide)⟩

/-- C8: every message on the broadcast resync topic enqueues the `DUMP`
command regardless of payload, and `apply_command` on `DUMP` always
publishes both the full current snapshot (the cache is cleared first,
so it is sent even when `old_status` already equals it) and the full
allowed snapshot, leaving `old_status` primed with the full status. -/
theorem dump_all_republishes (cam : TCam) (payload v : String) :
    do_republish_cmd payload = ("DUMP", none) ∧
    (apply_command cam "DUMP" v).2 =
      [.publishCurrent (statusOf cam.config), .publishAllowed (allowedOf cam.config)] ∧
    (apply_command cam "DUMP" v).1.oldStatus = some (statusOf cam.config) ∧
    (apply_command cam "DUMP" v).1.config = cam.config := by
  refine ⟨rfl, ?_, ?_, ?_⟩ <;>
  · unfold apply_command on_config_changed
    simp

/-! ## gui.py / rpi.py — CameraManager.adjust_relative -/

/-- `CameraManager.adjust_relative` (identical in gui.py and rpi.py),
reduced to its value selection: given the allowed list and the current
value, return the value sent via MQTT (`some`) or `none` when the call
returns without sending (off either end of the list, or the target
value is "Auto").  `Except.error` models the uncaught `ValueError` when
the current value is not in the allowed list. -/
def adjust_relative (allowed : List String) (current : String) (delta : Int) :
    Except String (Option String) :=
  match pyIndex allowed current with
  | none => .error "ValueError: current value not in allowed list"
  | some idx =>
    if (allowed.length : Int) ≤ (idx : Int) + delta then .ok none
    else if (idx : Int) + delta < 0 then .ok none
    else
      match allowed[((idx : Int) + delta).toNat]? with
      | none => .error "unreachable index"
      | some nv => if nv = "Auto" then .ok none else .ok (some nv)

/-- C10: when the current value is present in the allowed list,
`adjust_relative` never raises; it publishes either nothing, or exactly
the allowed-list element at index `current index + delta` with that
index in bounds; a target index off either end publishes nothing, a
target value "Auto" publishes nothing, and consequently "Auto" can
never be selected by relative stepping. -/
theorem adjust_relative_spec (allowed : List String) (current : String) (delta : Int)
    (hmem : current ∈ allowed) :
    ∃ idx : Nat, pyIndex allowed current = some idx ∧ allowed[idx]? = some current ∧
      (∀ v, adjust_relative allowed current delta = .ok (some v) →
        v ≠ "Auto" ∧ ∃ j : Nat, (j : Int) = (idx : Int) + delta ∧
          j < allowed.length ∧ allowed[j]? = some v) ∧
      (((idx : Int) + delta < 0 ∨ (allowed.length : Int) ≤ (idx : Int) + delta) →
        adjust_relative allowed current delta = .ok none) ∧
      (∀ j : Nat, (j : Int) = (idx : Int) + delta → allowed[j]? = some "Auto" →
        adjust_relative allowed current delta = .ok none) ∧
      (∃ r, adjust_relative allowed current delta = .ok r) := by
  obtain ⟨idx, hidx⟩ := pyIndex_of_mem hmem
  have hget := pyIndex_getElem hidx
  unfold adjust_relative
  simp only [hidx]
  by_cases h1 : (allowed.length : Int) ≤ (idx : Int) + delta
  · rw [if_pos h1]
    refine ⟨idx, rfl, hget, ?_, ?_, ?_, ⟨none, rfl⟩⟩
    · intro v hv
      simp at hv
    · intro _
      rfl
    · intro _ _ _
      rfl
  · rw [if_neg h1]
    by_cases h2 : (idx : Int) + delta < 0
    · rw [if_pos h2]
      refine ⟨idx, rfl, hget, ?_, ?_, ?_, ⟨none, rfl⟩⟩
      · intro v hv
        simp at hv
      · intro _
        rfl
      · intro _ _ _
        rfl
    · rw [if_neg h2]
      have hj : ((idx : Int) + delta).toNat < allowed.length := by omega
      obtain ⟨nv, hnv⟩ : ∃ nv, allowed[((idx : Int) + delta).toNat]? = some nv :=
        ⟨_, List.getElem?_eq_getElem hj⟩
      simp only [hnv]
      by_cases hAuto : nv = "Auto"
      · rw [if_pos hAuto]
        refine ⟨idx, rfl, hget, ?_, ?_, ?_, ⟨none, rfl⟩⟩
        · intro v hv
          simp at hv
        · intro _
          rfl
        · intro _ _ _
          rfl
      · rw [if_neg hAuto]
        refine ⟨idx, rfl, hget, ?_, ?_, ?_, ⟨some nv, rfl⟩⟩
        · intro v hv
          have hvnv : nv = v := by
            simpa using hv
          subst hvnv
          refine ⟨hAuto, ((idx : Int) + delta).toNat, Int.toNat_of_nonneg (by omega), hj, hnv⟩
        · intro hcase
          rcases hcase with h | h
          · exact absurd h h2
          · exact absurd h h1
        · intro j hjeq hjget
          have hjj : j = ((idx : Int) + delta).toNat := by omega
          rw [hjj, hnv] at hjget
          injection hjget with hbad
          exact absurd hbad hAuto

/-- Witness for `adjust_relative_spec`: the iso-style list
["Auto", "100", "125"], current "100", delta -1 — the target is "Auto",
so nothing is published. -/
theorem adjust_relative_spec_witness :
    ("100" ∈ (["Auto", "100", "125"] : List String)) ∧
    adjust_relative ["Auto", "100", "125"] "100" (-1) = .ok none := by
  refine ⟨by decide, ?_⟩
  obtain ⟨idx, hidx, -, -, -, hC, -⟩ :=
    adjust_relative_spec ["Auto", "100", "125"] "100" (-1) (by decide)
  have hidx1 : idx = 1 := by
    have hcomp : pyIndex ["Auto", "100", "125"] "100" = some 1 := by decide
    rw [hcomp] at hidx
    exact (Option.some.inj hidx).symm
  refine hC 0 ?_ (by decide)
  rw [hidx1]
  decide

end EosMidi
